import Mathlib

/-!
Verification of the Fluxion editor core (`crates/core/src/lib.rs`,
`crates/core/src/buffer.rs`) against its natural-language specification.

The Rust code is shallowly embedded: the ropey `Rope` is modelled as a
`List Char`, `PathBuf` as a list of path components, file-system calls as
an explicit oracle passed to the operations that perform I/O, and the
mutating methods as state-passing functions.  Rust code paths that panic
(`expect`, ropey out-of-bounds) are made total with default values; the
exact panic preconditions are captured separately as explicit predicates
where a claim is about them.
-/

namespace Fluxion

/-! ### The text rope (ropey semantics)

A ropey `Rope` is a sequence of chars.  `len_lines` counts one more line
than the number of newline chars; each line except the last includes its
terminating newline in `len_chars` of that line, exactly as ropey does.
-/

abbrev RopeText := List Char

/-- Split a text into its lines, each line keeping its trailing newline;
the (possibly empty) last line has no newline.  Mirrors ropey's line
decomposition: `splitAfter "ab\ncd" = ["ab\n", "cd"]`, `splitAfter "" = [""]`. -/
def splitAfter : List Char → List (List Char)
  | [] => [[]]
  | c :: rest =>
    if c = '\n' then ['\n'] :: splitAfter rest
    else
      match splitAfter rest with
      | [] => [[c]]
      | h :: t => (c :: h) :: t

/-- ropey `Rope::len_chars`. -/
def len_chars (t : RopeText) : Nat := t.length

/-- ropey `Rope::len_lines`. -/
def len_lines (t : RopeText) : Nat := (splitAfter t).length

/-- ropey `Rope::line(i)` (total model; out of range gives `[]`,
the real call panics for `i >= len_lines`). -/
def lineSeg (t : RopeText) (i : Nat) : List Char := (splitAfter t).getD i []

/-- Char length of line `i`, ropey's `line(i).len_chars()`:
includes the trailing newline on every non-final line. -/
def line_len (t : RopeText) (i : Nat) : Nat := (lineSeg t i).length

/-- ropey `Rope::line_to_char(i)` (total model; the real call panics for
`i > len_lines`). -/
def line_to_char (t : RopeText) (i : Nat) : Nat :=
  (((splitAfter t).take i).map List.length).sum

/-- ropey `Rope::insert_char(pos, c)` (total model; the real call panics
for `pos > len_chars`). -/
def insert_char (t : RopeText) (pos : Nat) (c : Char) : RopeText :=
  t.take pos ++ c :: t.drop pos

/-- ropey `Rope::remove(pos-1..pos)`, i.e. removal of the single char at
index `pos` (total model). -/
def remove_at (t : RopeText) (pos : Nat) : RopeText :=
  t.take pos ++ t.drop (pos + 1)

/-! ### Paths

`PathBuf` is modelled as its list of components.  `parent` drops the last
component (none for the empty path), `file_name` is the last component,
`join` appends one component; this matches `std::path` on the normal
paths the editor builds. -/

abbrev FsPath := List String

def parentDir? (p : FsPath) : Option FsPath :=
  match p with
  | [] => none
  | _ => some p.dropLast

def fileName? (p : FsPath) : Option String := p.getLast?

/-- `PathBuf::from(s)`: split a string on `/`, dropping empty components. -/
def pathFromString (s : String) : FsPath :=
  ((s.toList.foldr
      (fun c (acc : List (List Char) × List Char) =>
        if c = '/' then (acc.2 :: acc.1, []) else (acc.1, c :: acc.2))
      ([], [])) |> (fun acc => acc.2 :: acc.1)).map List.asString
    |>.filter (fun comp => comp ≠ "")

/-! ### The file-system oracle

`read` is the outcome `std::fs::read_to_string` would produce for a path
(`none` = I/O error), `write` whether `std::fs::write` to that path
succeeds.  Every operation that touches the disk takes the oracle. -/

structure Fs where
  read : FsPath → Option RopeText
  write : FsPath → Bool

/-! ### Buffers and the buffer manager (`buffer.rs` / `lib.rs`) -/

structure Buffer where
  id : Nat
  text : RopeText
  path : Option FsPath
  title : String
  dirty : Bool
  is_transient : Bool
deriving DecidableEq

def defaultBuffer : Buffer :=
  { id := 0, text := [], path := none, title := "", dirty := false, is_transient := false }

structure BufferManager where
  buffers : List Buffer
  current_buffer_id : Nat
  next_id : Nat
deriving DecidableEq

/-- `Iterator::position` on the buffer list. -/
def position (p : Buffer → Bool) : List Buffer → Option Nat
  | [] => none
  | b :: rest =>
    if p b then some 0
    else
      match position p rest with
      | none => none
      | some j => some (j + 1)

/-- `Iterator::find` on the buffer list. -/
def findBuf (p : Buffer → Bool) : List Buffer → Option Buffer
  | [] => none
  | b :: rest => if p b then some b else findBuf p rest

/-- `Vec::remove(i)`. -/
def removeAtIdx : List Buffer → Nat → List Buffer
  | [], _ => []
  | _ :: rest, 0 => rest
  | b :: rest, n + 1 => b :: removeAtIdx rest n

/-- Indexing `buffers[i]` (total model with default). -/
def nthBuf : List Buffer → Nat → Buffer
  | [], _ => defaultBuffer
  | b :: _, 0 => b
  | _ :: rest, n + 1 => nthBuf rest n

/-- Mutation through `iter_mut().find(..)`: rewrite the first buffer
satisfying `p` with `f`. -/
def replaceFirst (p : Buffer → Bool) (f : Buffer → Buffer) : List Buffer → List Buffer
  | [] => []
  | b :: rest => if p b then f b :: rest else b :: replaceFirst p f rest

namespace BufferManager

/-- `BufferManager::new`. -/
def new : BufferManager :=
  { buffers := [{ id := 0, text := [], path := none, title := "[No Name]",
                  dirty := false, is_transient := false }],
    current_buffer_id := 0,
    next_id := 1 }

/-- `BufferManager::new_buffer`. -/
def new_buffer (m : BufferManager) : Nat × BufferManager :=
  let id := m.next_id
  (id, { m with
          next_id := id + 1,
          buffers := m.buffers ++
            [{ id := id, text := [], path := none,
               title := "[Buffer " ++ toString id ++ "]",
               dirty := false, is_transient := false }] })

/-- `BufferManager::open_file`: reads the whole file; on I/O failure the
error propagates and the manager is untouched. -/
def open_file (m : BufferManager) (fs : Fs) (path : FsPath) :
    Except Unit (Nat × BufferManager) :=
  match fs.read path with
  | none => .error ()
  | some contents =>
    let title := (fileName? path).getD "[Untitled]"
    let id := m.next_id
    .ok (id, { m with
                next_id := id + 1,
                buffers := m.buffers ++
                  [{ id := id, text := contents, path := some path,
                     title := title, dirty := false, is_transient := false }] })

/-- `BufferManager::current_buffer` (total model of the panicking
`find(..).expect(..)`). -/
def current_buffer? (m : BufferManager) : Option Buffer :=
  findBuf (fun b => b.id == m.current_buffer_id) m.buffers

/-- The fresh `[No Name]` buffer synthesized when a delete empties the
collection. -/
def freshNoName (id : Nat) : Buffer :=
  { id := id, text := [], path := none, title := "[No Name]",
    dirty := false, is_transient := false }

/-- `BufferManager::delete_buffer`. -/
def delete_buffer (m : BufferManager) (id : Nat) : BufferManager × Bool :=
  match position (fun b => b.id == id) m.buffers with
  | none => (m, false)
  | some pos =>
    let bufs := removeAtIdx m.buffers pos
    match bufs with
    | [] =>
      ({ buffers := [freshNoName m.next_id], current_buffer_id := 0,
         next_id := m.next_id + 1 }, true)
    | b0 :: _ =>
      if m.current_buffer_id == id then
        ({ m with buffers := bufs, current_buffer_id := b0.id }, true)
      else
        ({ m with buffers := bufs }, true)

/-- `BufferManager::switch_to`: deletes the current buffer first when it
is transient, then commits `current_buffer_id := id`. -/
def switch_to (m : BufferManager) (id : Nat) : BufferManager × Bool :=
  if m.buffers.any (fun b => b.id == id) then
    let m1 :=
      match findBuf (fun b => b.id == m.current_buffer_id) m.buffers with
      | some cur => if cur.is_transient then (delete_buffer m m.current_buffer_id).1 else m
      | none => m
    ({ m1 with current_buffer_id := id }, true)
  else
    (m, false)

/-- `BufferManager::next_buffer`: takes `&mut self` but never mutates;
returned alongside the unchanged state. -/
def next_buffer (m : BufferManager) : Option Nat × BufferManager :=
  match position (fun b => b.id == m.current_buffer_id) m.buffers with
  | none => (none, m)
  | some i => (some (nthBuf m.buffers ((i + 1) % m.buffers.length)).id, m)

/-- `BufferManager::prev_buffer`. -/
def prev_buffer (m : BufferManager) : Option Nat × BufferManager :=
  match position (fun b => b.id == m.current_buffer_id) m.buffers with
  | none => (none, m)
  | some i =>
    let j := if i == 0 then m.buffers.length - 1 else i - 1
    (some (nthBuf m.buffers j).id, m)

/-- The default save path computed by `save_current` when no explicit
path is given: the buffer's own path recombined from parent and file
name, or `untitled_<id>.txt`. -/
def resolveSavePath (pathArg : Option FsPath) (buf : Buffer) : FsPath :=
  match pathArg with
  | some p => p
  | none =>
    match buf.path with
    | some p =>
      (match parentDir? p with
       | some par =>
         (match fileName? p with
          | some fn => par ++ [fn]
          | none => p)
       | none => ["untitled_" ++ toString buf.id ++ ".txt"])
    | none => ["untitled_" ++ toString buf.id ++ ".txt"]

/-- The field updates `save_current` performs on the saved buffer:
clear `dirty`, set the path, recompute the title from the path's file
name. -/
def savedBuffer (save_path : FsPath) (b : Buffer) : Buffer :=
  { b with
    dirty := false
    path := some save_path
    title := (fileName? save_path).getD "[Untitled]" }

/-- The manager after `save_current` successfully wrote `save_path`. -/
def savedManager (m : BufferManager) (save_path : FsPath) : BufferManager :=
  let bufs :=
    replaceFirst (fun b => b.id == m.current_buffer_id)
      (savedBuffer save_path) m.buffers
  { m with buffers := bufs }

/-- `BufferManager::save_current`: `none` models the `expect` panic when
the current buffer is missing; otherwise `(state, succeeded)`, the state
untouched when the write fails. -/
def save_current (m : BufferManager) (fs : Fs) (pathArg : Option FsPath) :
    Option (BufferManager × Bool) :=
  match findBuf (fun b => b.id == m.current_buffer_id) m.buffers with
  | none => none
  | some buf =>
    let save_path := resolveSavePath pathArg buf
    if fs.write save_path then
      some (savedManager m save_path, true)
    else
      some (m, false)

/-- `BufferManager::delete_current`. -/
def delete_current (m : BufferManager) : Option Nat × BufferManager :=
  match position (fun b => b.id == m.current_buffer_id) m.buffers with
  | none => (none, m)
  | some ci =>
    let bufs := removeAtIdx m.buffers ci
    match bufs with
    | [] =>
      (some 0, { buffers := [freshNoName m.next_id], current_buffer_id := 0,
                 next_id := m.next_id + 1 })
    | _ :: _ =>
      let ni := min ci (bufs.length - 1)
      let nid := (nthBuf bufs ni).id
      (some nid, { m with buffers := bufs, current_buffer_id := nid })

/-- The `while` loop of `delete_all_except`: keep exactly the buffers
whose id is `keep`. -/
def removeExceptLoop (keep : Nat) : List Buffer → List Buffer
  | [] => []
  | b :: rest =>
    if b.id == keep then b :: removeExceptLoop keep rest
    else removeExceptLoop keep rest

/-- `BufferManager::delete_all_except`. -/
def delete_all_except (m : BufferManager) (keep : Nat) : BufferManager :=
  { m with buffers := removeExceptLoop keep m.buffers, current_buffer_id := keep }

/-- `BufferManager::list_buffers`. -/
def list_buffers (m : BufferManager) : List Buffer :=
  m.buffers.filter (fun b => !b.is_transient)

end BufferManager

/-! ### The editor core (`lib.rs`) -/

structure Cursor where
  row : Nat
  col : Nat
deriving DecidableEq

inductive Mode where
  | Normal
  | Insert
  | Visual
  | Command
  | BufferList
  | SaveDialog
deriving DecidableEq

inductive Action where
  | Quit
  | Insert (c : Char)
  | Delete
  | DeleteFromCommand
  | NoOp
  | MoveUp
  | MoveDown
  | MoveLeft
  | MoveRight
  | EnterInsertMode
  | EnterNormalMode
  | EnterVisualMode
  | EnterCommandMode
  | ExecuteCommand
  | SwitchBuffer (id : Nat)
  | NextBuffer
  | PrevBuffer
  | ListBuffers
  | SaveBuffer
  | SaveBufferAs (p : Option FsPath)
  | OpenFile (filename : String)
  | CancelDialog
deriving DecidableEq

structure Editor where
  buffer_manager : BufferManager
  cursor : Cursor
  scroll_offset : Nat
  should_quit : Bool
  mode : Mode
  command_input : List Char
deriving DecidableEq

namespace Editor

/-- `Editor::new` (the argument is ignored by the source too). -/
def new (_initialText : String) : Editor :=
  { buffer_manager := BufferManager.new
    cursor := { row := 0, col := 0 }
    scroll_offset := 0
    should_quit := false
    mode := Mode.Normal
    command_input := [] }

/-- The current buffer's rope (total model of
`buffer_manager.current_buffer().text`). -/
def current_text (e : Editor) : RopeText :=
  ((e.buffer_manager.current_buffer?).getD defaultBuffer).text

/-- `Editor::cursor_to_byte`. -/
def cursor_to_byte (e : Editor) : Nat :=
  line_to_char e.current_text e.cursor.row + e.cursor.col

/-- `Editor::clamp_col_to_line`. -/
def clamp_col_to_line (e : Editor) : Editor :=
  let ll := line_len e.current_text e.cursor.row
  if ll < e.cursor.col then { e with cursor := { e.cursor with col := ll } } else e

/-- `Editor::move_up`. -/
def move_up (e : Editor) : Editor :=
  if 0 < e.cursor.row then
    clamp_col_to_line { e with cursor := { e.cursor with row := e.cursor.row - 1 } }
  else e

/-- `Editor::move_down`. -/
def move_down (e : Editor) : Editor :=
  if e.cursor.row < len_lines e.current_text - 1 then
    clamp_col_to_line { e with cursor := { e.cursor with row := e.cursor.row + 1 } }
  else e

/-- `Editor::move_left`. -/
def move_left (e : Editor) : Editor :=
  if 0 < e.cursor.col then
    { e with cursor := { e.cursor with col := e.cursor.col - 1 } }
  else if 0 < e.cursor.row then
    let r := e.cursor.row - 1
    { e with cursor := { row := r, col := line_len e.current_text r } }
  else e

/-- `Editor::move_right`. -/
def move_right (e : Editor) : Editor :=
  if e.cursor.col < line_len e.current_text e.cursor.row then
    { e with cursor := { e.cursor with col := e.cursor.col + 1 } }
  else if e.cursor.row < len_lines e.current_text - 1 then
    { e with cursor := { row := e.cursor.row + 1, col := 0 } }
  else e

/-- `Editor::update_cursor_after_insert`. -/
def update_cursor_after_insert (e : Editor) (c : Char) : Editor :=
  if c = '\n' then
    { e with cursor := { row := e.cursor.row + 1, col := 0 } }
  else
    { e with cursor := { e.cursor with col := e.cursor.col + 1 } }

/-- `Editor::update_cursor_after_delete` (runs on the already-modified
buffer, as in the source). -/
def update_cursor_after_delete (e : Editor) : Editor :=
  if 0 < e.cursor.col then
    { e with cursor := { e.cursor with col := e.cursor.col - 1 } }
  else if 0 < e.cursor.row then
    let r := e.cursor.row - 1
    { e with cursor := { row := r, col := line_len e.current_text r } }
  else e

/-- Mutate the current buffer through `current_buffer_mut`. -/
def mapCurrent (m : BufferManager) (f : Buffer → Buffer) : BufferManager :=
  { m with buffers := replaceFirst (fun b => b.id == m.current_buffer_id) f m.buffers }

/-- The trailing `self.mode = Mode::Normal; self.command_input.clear();`
of `execute_command`. -/
def finishNormal (e : Editor) : Editor :=
  { e with mode := Mode.Normal, command_input := [] }

/-- `str::split_whitespace` on the accumulated command text. -/
def words (input : List Char) : List String :=
  (input.foldr
      (fun c (acc : List (List Char) × List Char) =>
        if c = ' ' ∨ c = '\t' ∨ c = '\n' ∨ c = '\r' then (acc.2 :: acc.1, [])
        else (acc.1, c :: acc.2))
      ([], []) |> (fun acc => acc.2 :: acc.1)).map List.asString
    |>.filter (fun w => w ≠ "")

/-- `Editor::execute_command` (the `lib.rs` interpreter: `q`/`quit`, `w`,
`wq`, `!q`, `b`, `bn`/`bnext`, `bp`/`bprev`, `e`, single-digit buffer
switch). -/
def execute_command (fs : Fs) (e : Editor) : Editor :=
  let parts := words e.command_input
  match parts.head? with
  | none => finishNormal e
  | some cmd =>
    if cmd == "q" || cmd == "quit" then
      finishNormal { e with should_quit := true }
    else if cmd == "w" then
      match parts.getD 1 "" , parts.length with
      | pstr, n =>
        if 2 ≤ n then
          match e.buffer_manager.save_current fs (some (pathFromString pstr)) with
          | none => e
          | some (m1, _) => finishNormal { e with buffer_manager := m1 }
        else
          match e.buffer_manager.current_buffer? with
          | none => e
          | some buf =>
            if buf.path.isNone then
              { e with mode := Mode.SaveDialog, command_input := [] }
            else
              match e.buffer_manager.save_current fs none with
              | none => e
              | some (m1, _) => finishNormal { e with buffer_manager := m1 }
    else if cmd == "wq" then
      match e.buffer_manager.current_buffer? with
      | none => e
      | some buf =>
        if buf.path.isNone then
          { e with mode := Mode.SaveDialog, command_input := [] }
        else
          match e.buffer_manager.save_current fs none with
          | none => e
          | some (m1, _) =>
            finishNormal { e with buffer_manager := m1, should_quit := true }
    else if cmd == "!q" then
      finishNormal { e with should_quit := true }
    else if cmd == "b" then
      { e with mode := Mode.BufferList, command_input := [] }
    else if cmd == "bn" || cmd == "bnext" then
      match (e.buffer_manager.next_buffer).1 with
      | some id => finishNormal { e with buffer_manager := (e.buffer_manager.switch_to id).1 }
      | none => finishNormal e
    else if cmd == "bp" || cmd == "bprev" then
      match (e.buffer_manager.prev_buffer).1 with
      | some id => finishNormal { e with buffer_manager := (e.buffer_manager.switch_to id).1 }
      | none => finishNormal e
    else if cmd == "e" then
      if 2 ≤ parts.length then
        match e.buffer_manager.open_file fs (pathFromString (parts.getD 1 "")) with
        | .ok (id, m1) =>
          finishNormal
            { e with
              buffer_manager := (m1.switch_to id).1
              cursor := { row := 0, col := 0 } }
        | .error _ => finishNormal e
      else finishNormal e
    else
      match cmd.toList with
      | [c] =>
        if c.isDigit then
          let id := c.toNat - 48
          let (m1, ok) := e.buffer_manager.switch_to id
          if ok then
            finishNormal { e with buffer_manager := m1, cursor := { row := 0, col := 0 } }
          else finishNormal { e with buffer_manager := m1 }
        else finishNormal e
      | _ => finishNormal e

/-- `Editor::handle_action`. -/
def handle_action (fs : Fs) (e : Editor) (a : Action) : Editor :=
  match a with
  | .Quit => { e with should_quit := true }
  | .Insert c =>
    let pos := e.cursor_to_byte
    let m1 := mapCurrent e.buffer_manager
      (fun b => { b with text := insert_char b.text pos c, dirty := true })
    update_cursor_after_insert { e with buffer_manager := m1 } c
  | .Delete =>
    let pos := e.cursor_to_byte
    if 0 < pos then
      let m1 := mapCurrent e.buffer_manager
        (fun b => { b with text := remove_at b.text (pos - 1), dirty := true })
      update_cursor_after_delete { e with buffer_manager := m1 }
    else e
  | .DeleteFromCommand => { e with command_input := e.command_input.dropLast }
  | .NoOp => e
  | .MoveUp => e.move_up
  | .MoveDown => e.move_down
  | .MoveLeft => e.move_left
  | .MoveRight => e.move_right
  | .EnterInsertMode => { e with mode := Mode.Insert }
  | .EnterNormalMode => { e with mode := Mode.Normal }
  | .EnterVisualMode => { e with mode := Mode.Visual }
  | .EnterCommandMode => { e with mode := Mode.Command, command_input := [] }
  | .ExecuteCommand => execute_command fs e
  | .SwitchBuffer id =>
    let (m1, ok) := e.buffer_manager.switch_to id
    if ok then { e with buffer_manager := m1, cursor := { row := 0, col := 0 } }
    else { e with buffer_manager := m1 }
  | .NextBuffer =>
    match (e.buffer_manager.next_buffer).1 with
    | some id =>
      let (m1, ok) := e.buffer_manager.switch_to id
      if ok then { e with buffer_manager := m1, cursor := { row := 0, col := 0 } }
      else { e with buffer_manager := m1 }
    | none => e
  | .PrevBuffer =>
    match (e.buffer_manager.prev_buffer).1 with
    | some id =>
      let (m1, ok) := e.buffer_manager.switch_to id
      if ok then { e with buffer_manager := m1, cursor := { row := 0, col := 0 } }
      else { e with buffer_manager := m1 }
    | none => e
  | .ListBuffers => { e with mode := Mode.BufferList }
  | .SaveBuffer =>
    match e.buffer_manager.current_buffer? with
    | none => e
    | some buf =>
      if buf.path.isNone then
        { e with mode := Mode.SaveDialog, command_input := [] }
      else
        match e.buffer_manager.save_current fs none with
        | none => e
        | some (m1, _) => { e with buffer_manager := m1 }
  | .SaveBufferAs p =>
    match e.buffer_manager.save_current fs p with
    | none => e
    | some (m1, _) => { e with buffer_manager := m1 }
  | .OpenFile filename =>
    match e.buffer_manager.open_file fs (pathFromString filename) with
    | .ok (id, m1) =>
      let (m2, ok) := m1.switch_to id
      if ok then { e with buffer_manager := m2, cursor := { row := 0, col := 0 } }
      else { e with buffer_manager := m2 }
    | .error _ => e
  | .CancelDialog => { e with mode := Mode.Normal, command_input := [] }

/-- `Editor::insert_into_command` (called by the key mapper while in
Command or SaveDialog mode). -/
def insert_into_command (e : Editor) (c : Char) : Editor :=
  { e with command_input := e.command_input ++ [c] }

end Editor

/-! ### Driving the editor

One step of the event loop is either an `Action` handed to
`handle_action` or a character typed into the command line through
`insert_into_command`. -/

inductive Input where
  | act (a : Action)
  | key (c : Char)

def applyInput (fs : Fs) (e : Editor) : Input → Editor
  | .act a => e.handle_action fs a
  | .key c => e.insert_into_command c

def runInputs (fs : Fs) (e : Editor) (l : List Input) : Editor :=
  l.foldl (applyInput fs) e

/-- A state is reachable when some input sequence with some file-system
behaviour produces it from the initial editor. -/
def Reachable (e : Editor) : Prop :=
  ∃ fs l, runInputs fs (Editor.new "") l = e

/-! ### Panic conditions

`handle_action` on `Insert` calls `line_to_char(row)` (panics when
`row > len_lines`) and `insert_char(pos, c)` (panics when
`pos > len_chars`); this predicate is true exactly when the real code
would abort. -/

def insertWouldPanic (e : Editor) : Bool :=
  decide (len_lines e.current_text < e.cursor.row) ||
  decide (len_chars e.current_text < e.cursor_to_byte)

/-- The cursor well-formedness stated by the specification:
`row < line_count` and `col <= length(line[row])`. -/
def cursorOk (e : Editor) : Bool :=
  decide (e.cursor.row < len_lines e.current_text) &&
  decide (e.cursor.col ≤ line_len e.current_text e.cursor.row)

/-! ### The spec-only buffer-closing commands -/

/-- Modelled from the spec: the buffer-closing branches of the command
interpreter — `bx`/`bc`/`bclose` "close current buffer" and
`baex`/`ballbutexcept` "close all but current" — which the packaged
`execute_command` in `lib.rs` does not contain, although the key mapper
in `crates/tui` already emits the matching `CloseBuffer` and
`CloseAllBuffersExcept` actions.  The branches delegate to
`BufferManager::delete_current` and `BufferManager::delete_all_except`
from `buffer.rs`; every other command falls through to the packaged
interpreter. -/
def execute_command_full (fs : Fs) (e : Editor) : Editor :=
  let parts := Editor.words e.command_input
  match parts.head? with
  | some cmd =>
    if cmd == "bx" || cmd == "bc" || cmd == "bclose" then
      Editor.finishNormal
        { e with buffer_manager := (e.buffer_manager.delete_current).2 }
    else if cmd == "baex" || cmd == "ballbutexcept" then
      Editor.finishNormal
        { e with buffer_manager :=
            e.buffer_manager.delete_all_except e.buffer_manager.current_buffer_id }
    else Editor.execute_command fs e
  | none => Editor.execute_command fs e

/-! ### Well-formedness of a buffer manager -/

/-- Buffer ids are pairwise distinct. -/
abbrev idsNodup (m : BufferManager) : Prop := (m.buffers.map Buffer.id).Nodup

/-- Every buffer id is below the allocator counter. -/
abbrev idsBounded (m : BufferManager) : Prop := ∀ b ∈ m.buffers, b.id < m.next_id

/-- `current_buffer_id` names a buffer of the collection. -/
abbrev currentExists (m : BufferManager) : Prop :=
  ∃ b ∈ m.buffers, b.id = m.current_buffer_id

/-! ### Concrete runs exercising the `:bn`/`:bp` command branches -/

/-- A file system on which every read yields an empty file and every
write succeeds. -/
def fsEmptyReads : Fs := { read := fun _ => some [], write := fun _ => true }

/-- A file system on which every write fails. -/
def fsNoWrite : Fs := { read := fun _ => some [], write := fun _ => false }

/-- Type five chars into buffer 0, open an (empty) file as buffer 1,
go back to buffer 0 with `:bp`, move to column 5, then enter `:bn`
without executing it yet. -/
def bnPrefix : List Input :=
  [.act (.Insert 'a'), .act (.Insert 'a'), .act (.Insert 'a'),
   .act (.Insert 'a'), .act (.Insert 'a'),
   .act (.OpenFile "f"),
   .act .EnterCommandMode, .key 'b', .key 'p', .act .ExecuteCommand,
   .act .MoveRight, .act .MoveRight, .act .MoveRight,
   .act .MoveRight, .act .MoveRight,
   .act .EnterCommandMode, .key 'b', .key 'n']

/-- The editor just before `:bn` is executed: current buffer 0 holds
`"aaaaa"`, the cursor sits at `(0,5)`, the command line holds `bn`. -/
def beforeBn : Editor := runInputs fsEmptyReads (Editor.new "") bnPrefix

/-- The full run: the `:bn` prefix followed by `ExecuteCommand`. -/
def staleCursorTrace : List Input := bnPrefix ++ [.act .ExecuteCommand]

/-- The editor after `:bn` executed: the manager switched to the empty
buffer 1 while the cursor still sits at `(0,5)`. -/
def staleCursorState : Editor :=
  runInputs fsEmptyReads (Editor.new "") staleCursorTrace

/-! ### Concrete fixtures for the witnesses -/

/-- A plain two-line buffer `"ab\ncd"` with id 0. -/
def twoLineBuffer : Buffer :=
  { id := 0, text := ['a', 'b', '\n', 'c', 'd'], path := none,
    title := "t", dirty := false, is_transient := false }

/-- An editor whose sole buffer holds `"ab\ncd"`, the cursor placed by
`c`. -/
def twoLineEditor (c : Cursor) : Editor :=
  { buffer_manager :=
      { buffers := [twoLineBuffer], current_buffer_id := 0, next_id := 1 }
    cursor := c
    scroll_offset := 0
    should_quit := false
    mode := Mode.Normal
    command_input := [] }

/-- A buffer with a given id, path and no text. -/
def plainBuffer (id : Nat) (p : Option FsPath) : Buffer :=
  { id := id, text := [], path := p, title := "t", dirty := true,
    is_transient := false }

/-- A manager holding buffers `[0, 1, 2]`, current set by the
argument. -/
def threeBufferManager (cur : Nat) : BufferManager :=
  { buffers := [plainBuffer 0 none, plainBuffer 1 none, plainBuffer 2 none]
    current_buffer_id := cur
    next_id := 3 }

/-- An editor in Command mode over two buffers, current buffer 0,
used to witness the close-buffer commands. -/
def twoBufferCommandEditor : Editor :=
  { buffer_manager :=
      { buffers := [plainBuffer 0 none, plainBuffer 1 none]
        current_buffer_id := 0
        next_id := 2 }
    cursor := { row := 0, col := 0 }
    scroll_offset := 0
    should_quit := false
    mode := Mode.Command
    command_input := []
  }

/-- An editor in Command mode whose current buffer has an origin path,
with `wq` typed on the command line. -/
def wqEditor : Editor :=
  { buffer_manager :=
      { buffers := [plainBuffer 0 (some ["f.txt"])]
        current_buffer_id := 0
        next_id := 1 }
    cursor := { row := 0, col := 0 }
    scroll_offset := 0
    should_quit := false
    mode := Mode.Command
    command_input := ['w', 'q']
  }

/-! ## Claim theorems -/

/-- C1: the claimed invariant — after every `new_buffer` / `open_file` /
`delete_buffer` / `delete_current` / `delete_all_except` sequence from
`BufferManager::new()` the collection is non-empty and
`current_buffer_id` names an existing buffer — fails on the code at the
very first step `delete_buffer(0)`: the synthesized replacement buffer
gets id `next_id = 1` while `current_buffer_id` is reset to the literal
`0`, so the current id names no buffer. -/
theorem delete_buffer_leaves_dangling_current_id :
    ((BufferManager.new.delete_buffer 0).1.buffers.map Buffer.id = [1]) ∧
    (BufferManager.new.delete_buffer 0).1.current_buffer_id = 0 ∧
    ((BufferManager.new.delete_buffer 0).1.buffers.any
      (fun b => b.id == (BufferManager.new.delete_buffer 0).1.current_buffer_id)) = false := by
  decide

/-- C2: the claimed cursor invariant (`row < line_count` and
`col <= length(line[row])` after every action) fails on a reachable
state: after `:bn` switches to an empty buffer the cursor keeps its old
column 5, so `col = 5 > 0 = length(line[0])`. -/
theorem cursor_invariant_fails_after_bn :
    Reachable staleCursorState ∧ cursorOk staleCursorState = false :=
  ⟨⟨fsEmptyReads, staleCursorTrace, rfl⟩, by decide⟩

/-- C3: the claimed totality of `handle_action` fails on a reachable
state: at `staleCursorState` the byte offset for the cursor is 5 while
the current rope has 0 chars, so the next `Insert` action calls ropey's
`insert_char` out of bounds and the process panics. -/
theorem insert_panics_after_bn :
    Reachable staleCursorState ∧ insertWouldPanic staleCursorState = true :=
  ⟨⟨fsEmptyReads, staleCursorTrace, rfl⟩, by decide⟩

/-- C4: `delete_current`'s claimed contract fails in the
became-empty branch: deleting the only buffer of a fresh manager
synthesizes a replacement with id `next_id = 1`, but sets
`current_buffer_id` to the literal `0` and returns `Some(0)` — the
replacement does not become current and the returned id names no
buffer. -/
theorem delete_current_replacement_not_current :
    (BufferManager.new.delete_current).1 = some 0 ∧
    (BufferManager.new.delete_current).2.buffers.map Buffer.id = [1] ∧
    (BufferManager.new.delete_current).2.current_buffer_id = 0 ∧
    ((BufferManager.new.delete_current).2.buffers.any (fun b => b.id == 0)) = false := by
  decide

/-- C5: the claim that `:bn` (resp. `:bp`) switches buffers and resets
the cursor to `(0,0)` on success fails: from a Command-mode state with
command text `bn`, current buffer 0 and cursor `(0,5)`, executing the
command does switch the current buffer to 1 but leaves the cursor at
`(0,5)`. -/
theorem bn_command_does_not_reset_cursor :
    beforeBn.buffer_manager.current_buffer_id = 0 ∧
    beforeBn.mode = Mode.Command ∧
    beforeBn.command_input = ['b', 'n'] ∧
    beforeBn.cursor = { row := 0, col := 5 } ∧
    staleCursorState = beforeBn.handle_action fsEmptyReads .ExecuteCommand ∧
    staleCursorState.buffer_manager.current_buffer_id = 1 ∧
    staleCursorState.cursor = { row := 0, col := 5 } := by
  decide

/-! ## Helper lemmas about the list primitives -/

theorem position_spec {p : Buffer → Bool} {l : List Buffer} {i : Nat}
    (h : position p l = some i) :
    ∃ pre x post, l = pre ++ x :: post ∧ pre.length = i ∧ p x = true := by
  induction l generalizing i with
  | nil => simp [position] at h
  | cons b rest ih =>
    by_cases hb : p b
    · simp only [position, hb, if_true, Option.some.injEq] at h
      exact ⟨[], b, rest, rfl, by simpa using h, hb⟩
    · simp only [position, hb, if_false] at h
      cases hr : position p rest with
      | none => rw [hr] at h; exact absurd h (by simp)
      | some j =>
        rw [hr] at h
        have hji : j + 1 = i := Option.some.inj h
        obtain ⟨pre, x, post, hl, hlen, hx⟩ := ih hr
        refine ⟨b :: pre, x, post, by simp [hl], ?_, hx⟩
        simp only [List.length_cons, hlen]
        omega

theorem position_none {p : Buffer → Bool} {l : List Buffer}
    (h : position p l = none) : ∀ x ∈ l, p x = false := by
  induction l with
  | nil => intro x hx; simp at hx
  | cons b rest ih =>
    intro x hx
    by_cases hb : p b
    · simp [position, hb] at h
    · simp only [position, hb, if_false] at h
      cases hx with
      | head => simpa using hb
      | tail _ hmem =>
        cases hr : position p rest with
        | none => exact ih hr x hmem
        | some j => rw [hr] at h; exact absurd h (by simp)

theorem removeAtIdx_append (pre : List Buffer) (x : Buffer) (post : List Buffer) :
    removeAtIdx (pre ++ x :: post) pre.length = pre ++ post := by
  induction pre with
  | nil => rfl
  | cons b pre ih => simpa [removeAtIdx] using ih

theorem findBuf_eq_some {p : Buffer → Bool} {l : List Buffer} {x : Buffer}
    (h : findBuf p l = some x) : p x = true ∧ x ∈ l := by
  induction l with
  | nil => simp [findBuf] at h
  | cons b rest ih =>
    by_cases hb : p b
    · simp only [findBuf, hb, if_true, Option.some.injEq] at h
      subst h; exact ⟨hb, List.mem_cons_self b rest⟩
    · simp only [findBuf, hb, if_false] at h
      obtain ⟨hp, hm⟩ := ih h
      exact ⟨hp, List.mem_cons_of_mem b hm⟩

theorem findBuf_replaceFirst {p : Buffer → Bool} {f : Buffer → Buffer}
    {l : List Buffer} {x : Buffer}
    (h : findBuf p l = some x) (hf : p (f x) = true) :
    findBuf p (replaceFirst p f l) = some (f x) := by
  induction l with
  | nil => simp [findBuf] at h
  | cons b rest ih =>
    by_cases hb : p b
    · simp only [findBuf, hb, if_true, Option.some.injEq] at h
      subst h
      simp [replaceFirst, findBuf, hb, hf]
    · simp only [findBuf, hb, if_false] at h
      simp [replaceFirst, findBuf, hb, ih h]

theorem removeExceptLoop_mem {keep : Nat} {l : List Buffer} :
    ∀ b ∈ BufferManager.removeExceptLoop keep l, b.id = keep := by
  induction l with
  | nil => intro b hb; simp [BufferManager.removeExceptLoop] at hb
  | cons x rest ih =>
    intro b hb
    by_cases hx : (x.id == keep) = true
    · simp only [BufferManager.removeExceptLoop, hx, if_true] at hb
      cases hb with
      | head => simpa using hx
      | tail _ hmem => exact ih b hmem
    · simp only [BufferManager.removeExceptLoop, hx, if_false] at hb
      exact ih b hb

theorem removeExceptLoop_keeps {keep : Nat} {l : List Buffer} :
    ∀ b ∈ l, b.id = keep → b ∈ BufferManager.removeExceptLoop keep l := by
  induction l with
  | nil => intro b hb; simp at hb
  | cons x rest ih =>
    intro b hb hid
    cases hb with
    | head =>
      have hx : (x.id == keep) = true := by simpa using hid
      simp [BufferManager.removeExceptLoop, hx]
    | tail _ hmem =>
      by_cases hx : (x.id == keep) = true
      · simp only [BufferManager.removeExceptLoop, hx, if_true]
        exact List.mem_cons_of_mem x (ih b hmem hid)
      · simp only [BufferManager.removeExceptLoop, hx, if_false]
        exact ih b hmem hid

theorem replaceFirst_length {p : Buffer → Bool} {f : Buffer → Buffer}
    (l : List Buffer) : (replaceFirst p f l).length = l.length := by
  induction l with
  | nil => rfl
  | cons b rest ih =>
    by_cases hb : p b
    · simp [replaceFirst, hb]
    · simp [replaceFirst, hb, ih]

/-- On a manager with pairwise-distinct, allocator-bounded ids,
`delete_current` leaves no buffer carrying the old current id. -/
theorem delete_current_removes (m : BufferManager)
    (hnd : idsNodup m) (hbd : idsBounded m) :
    ∀ b ∈ (m.delete_current).2.buffers, b.id ≠ m.current_buffer_id := by
  intro b hbm
  cases hpos : position (fun b => b.id == m.current_buffer_id) m.buffers with
  | none =>
    have hsame : (m.delete_current).2 = m := by
      simp [BufferManager.delete_current, hpos]
    rw [hsame] at hbm
    have := position_none hpos b hbm
    simpa using this
  | some ci =>
    obtain ⟨pre, x, post, hl, hlen, hx⟩ := position_spec hpos
    have hxid : x.id = m.current_buffer_id := by simpa using hx
    have hrem : removeAtIdx m.buffers ci = pre ++ post := by
      rw [hl, ← hlen]; exact removeAtIdx_append pre x post
    cases hpp : pre ++ post with
    | nil =>
      have hbufs : (m.delete_current).2.buffers =
          [BufferManager.freshNoName m.next_id] := by
        simp [BufferManager.delete_current, hpos, hrem, hpp]
      rw [hbufs] at hbm
      have hb1 : b = BufferManager.freshNoName m.next_id := by simpa using hbm
      have hxmem : x ∈ m.buffers := by rw [hl]; simp
      have hxlt : x.id < m.next_id := hbd x hxmem
      rw [hb1, ← hxid]
      simp [BufferManager.freshNoName]
      omega
    | cons c rest =>
      have hbufs : (m.delete_current).2.buffers = pre ++ post := by
        simp [BufferManager.delete_current, hpos, hrem, hpp]
      rw [hbufs] at hbm
      have hnd' : ((pre ++ x :: post).map Buffer.id).Nodup := by
        rw [← hl]; exact hnd
      rw [List.map_append, List.map_cons] at hnd'
      have hnotin : x.id ∉ pre.map Buffer.id ++ post.map Buffer.id :=
        (List.nodup_cons.mp (List.nodup_middle.mp hnd')).1
      intro hbe
      apply hnotin
      have : b.id ∈ (pre ++ post).map Buffer.id := List.mem_map_of_mem Buffer.id hbm
      rw [List.map_append] at this
      rw [← hxid] at hbe
      rw [← hbe]
      exact this

/-- C6: in Command mode the commands `bx`/`bc`/`bclose` close the
current buffer (no buffer with the old current id remains), and
`baex`/`ballbutexcept` close every buffer except the current one (only
buffers with the current id remain; the current buffer itself stays and
`current_buffer_id` is unchanged).  Stated over the spec-modelled
interpreter `execute_command_full`. -/
theorem close_commands_close_buffers (fs : Fs) (e : Editor)
    (hnd : idsNodup e.buffer_manager) (hbd : idsBounded e.buffer_manager)
    (hmode : e.mode = Mode.Command) :
    (∀ s ∈ (["bx", "bc", "bclose"] : List String),
      ∀ b ∈ (execute_command_full fs
              { e with command_input := s.toList }).buffer_manager.buffers,
        b.id ≠ e.buffer_manager.current_buffer_id) ∧
    (∀ s ∈ (["baex", "ballbutexcept"] : List String),
      (∀ b ∈ (execute_command_full fs
              { e with command_input := s.toList }).buffer_manager.buffers,
        b.id = e.buffer_manager.current_buffer_id) ∧
      (execute_command_full fs
          { e with command_input := s.toList }).buffer_manager.current_buffer_id
        = e.buffer_manager.current_buffer_id ∧
      (currentExists e.buffer_manager →
        ∃ b ∈ (execute_command_full fs
                { e with command_input := s.toList }).buffer_manager.buffers,
          b.id = e.buffer_manager.current_buffer_id)) := by
  constructor
  · intro s hs
    simp only [List.mem_cons, List.not_mem_nil, or_false] at hs
    rcases hs with rfl | rfl | rfl
    · exact fun b hb => delete_current_removes e.buffer_manager hnd hbd b hb
    · exact fun b hb => delete_current_removes e.buffer_manager hnd hbd b hb
    · exact fun b hb => delete_current_removes e.buffer_manager hnd hbd b hb
  · intro s hs
    simp only [List.mem_cons, List.not_mem_nil, or_false] at hs
    rcases hs with rfl | rfl
    · refine ⟨fun b hb => removeExceptLoop_mem b hb, rfl, ?_⟩
      rintro ⟨b, hbm, hbid⟩
      exact ⟨b, removeExceptLoop_keeps b hbm hbid, hbid⟩
    · refine ⟨fun b hb => removeExceptLoop_mem b hb, rfl, ?_⟩
      rintro ⟨b, hbm, hbid⟩
      exact ⟨b, removeExceptLoop_keeps b hbm hbid, hbid⟩

/-- C6 witness: on a concrete Command-mode editor with buffers `[0, 1]`
and current 0, `:bx` leaves no buffer with id 0 and `:baex` keeps only
buffers with id 0. -/
theorem close_commands_close_buffers_witness :
    (∀ b ∈ (execute_command_full fsEmptyReads
            { twoBufferCommandEditor with
              command_input := "bx".toList }).buffer_manager.buffers,
      b.id ≠ 0) ∧
    (∀ b ∈ (execute_command_full fsEmptyReads
            { twoBufferCommandEditor with
              command_input := "baex".toList }).buffer_manager.buffers,
      b.id = 0) := by
  constructor
  · exact fun b hb =>
      (close_commands_close_buffers fsEmptyReads twoBufferCommandEditor
        (by decide) (by decide) rfl).1 "bx" (by simp) b hb
  · exact fun b hb =>
      ((close_commands_close_buffers fsEmptyReads twoBufferCommandEditor
        (by decide) (by decide) rfl).2 "baex" (by simp)).1 b hb

/-- C7: `save_current` with the current buffer present: when the write
to the resolved path fails, the whole manager state is returned
unchanged with the failure surfaced; when it succeeds, the current
buffer has `dirty` cleared, its path set to the path written and its
title recomputed from that path's file name, while `current_buffer_id`,
`next_id` and the buffer count are unchanged. -/
theorem save_current_contract (m : BufferManager) (fs : Fs)
    (pathArg : Option FsPath) (buf : Buffer)
    (h : findBuf (fun b => b.id == m.current_buffer_id) m.buffers = some buf) :
    (fs.write (BufferManager.resolveSavePath pathArg buf) = false →
      m.save_current fs pathArg = some (m, false)) ∧
    (fs.write (BufferManager.resolveSavePath pathArg buf) = true →
      ∃ m', m.save_current fs pathArg = some (m', true) ∧
        m'.current_buffer_id = m.current_buffer_id ∧
        m'.next_id = m.next_id ∧
        m'.buffers.length = m.buffers.length ∧
        findBuf (fun b => b.id == m'.current_buffer_id) m'.buffers =
          some { buf with
                 dirty := false
                 path := some (BufferManager.resolveSavePath pathArg buf)
                 title := (fileName?
                    (BufferManager.resolveSavePath pathArg buf)).getD "[Untitled]" }) := by
  constructor
  · intro hw
    simp [BufferManager.save_current, h, hw]
  · intro hw
    refine ⟨BufferManager.savedManager m (BufferManager.resolveSavePath pathArg buf),
      ?_, rfl, rfl, ?_, ?_⟩
    · simp [BufferManager.save_current, h, hw]
    · show (replaceFirst (fun b => b.id == m.current_buffer_id)
          (BufferManager.savedBuffer (BufferManager.resolveSavePath pathArg buf))
          m.buffers).length = m.buffers.length
      exact replaceFirst_length m.buffers
    · show findBuf (fun b => b.id == m.current_buffer_id)
          (replaceFirst (fun b => b.id == m.current_buffer_id)
            (BufferManager.savedBuffer (BufferManager.resolveSavePath pathArg buf))
            m.buffers) =
        some (BufferManager.savedBuffer (BufferManager.resolveSavePath pathArg buf) buf)
      exact findBuf_replaceFirst h (findBuf_eq_some h).1

/-- C7 witness: saving the fresh manager's buffer to `out.txt` with a
failing write returns the unchanged manager; with a succeeding write it
clears `dirty`, sets the path and recomputes the title. -/
theorem save_current_contract_witness :
    (BufferManager.new.save_current fsNoWrite (some ["out.txt"]) =
      some (BufferManager.new, false)) ∧
    (∃ m', BufferManager.new.save_current fsEmptyReads (some ["out.txt"]) =
        some (m', true) ∧
      m'.current_buffer_id = BufferManager.new.current_buffer_id ∧
      m'.next_id = BufferManager.new.next_id ∧
      m'.buffers.length = BufferManager.new.buffers.length ∧
      findBuf (fun b => b.id == m'.current_buffer_id) m'.buffers =
        some { id := 0, text := [], path := some ["out.txt"], title := "out.txt",
               dirty := false, is_transient := false }) := by
  constructor
  · exact (save_current_contract BufferManager.new fsNoWrite (some ["out.txt"])
      { id := 0, text := [], path := none, title := "[No Name]",
        dirty := false, is_transient := false } rfl).1 rfl
  · exact (save_current_contract BufferManager.new fsEmptyReads (some ["out.txt"])
      { id := 0, text := [], path := none, title := "[No Name]",
        dirty := false, is_transient := false } rfl).2 rfl

/-- C8: horizontal motion wraps across line boundaries: `move_left` at
column 0 of a positive row goes to the end (ropey char length, newline
included) of the previous line; `move_right` at or past the end of a
line that has a following line goes to column 0 of the next line;
`move_left` at `(0,0)` and `move_right` at the end of the last line
leave the editor unchanged. -/
theorem horizontal_motion_wraps (e : Editor) (buf : Buffer)
    (hcur : findBuf (fun b => b.id == e.buffer_manager.current_buffer_id)
      e.buffer_manager.buffers = some buf)
    (hrow : e.cursor.row < len_lines e.current_text) :
    (e.cursor.col = 0 → 0 < e.cursor.row →
      e.move_left = { e with cursor :=
        { row := e.cursor.row - 1,
          col := line_len e.current_text (e.cursor.row - 1) } }) ∧
    (line_len e.current_text e.cursor.row ≤ e.cursor.col →
      e.cursor.row + 1 < len_lines e.current_text →
      e.move_right = { e with cursor := { row := e.cursor.row + 1, col := 0 } }) ∧
    (e.cursor.row = 0 → e.cursor.col = 0 → e.move_left = e) ∧
    (e.cursor.row = len_lines e.current_text - 1 →
      e.cursor.col = line_len e.current_text e.cursor.row →
      e.move_right = e) := by
  refine ⟨?_, ?_, ?_, ?_⟩
  · intro h0 hr
    simp only [Editor.move_left]
    rw [if_neg (by omega), if_pos hr]
  · intro hll hr
    simp only [Editor.move_right]
    rw [if_neg (by omega), if_pos (by omega)]
  · intro hr h0
    simp only [Editor.move_left]
    rw [if_neg (by omega), if_neg (by omega)]
  · intro hr hc
    simp only [Editor.move_right]
    rw [if_neg (by omega), if_neg (by omega)]

/-- C8 witness: on the buffer `"ab\ncd"`, `move_left` from `(1,0)`
reaches `(0,3)` (the end of `"ab\n"` in ropey chars), `move_right` from
`(0,3)` reaches `(1,0)`, and motion at `(0,0)` / `(1,2)` is a no-op. -/
theorem horizontal_motion_wraps_witness :
    ((twoLineEditor { row := 1, col := 0 }).move_left =
      { twoLineEditor { row := 1, col := 0 } with
        cursor := { row := 0, col := 3 } }) ∧
    ((twoLineEditor { row := 0, col := 3 }).move_right =
      { twoLineEditor { row := 0, col := 3 } with
        cursor := { row := 1, col := 0 } }) ∧
    ((twoLineEditor { row := 0, col := 0 }).move_left =
      twoLineEditor { row := 0, col := 0 }) ∧
    ((twoLineEditor { row := 1, col := 2 }).move_right =
      twoLineEditor { row := 1, col := 2 }) := by
  refine ⟨?_, ?_, ?_, ?_⟩
  · exact (horizontal_motion_wraps (twoLineEditor { row := 1, col := 0 })
      twoLineBuffer rfl (by decide)).1 rfl (by decide)
  · exact (horizontal_motion_wraps (twoLineEditor { row := 0, col := 3 })
      twoLineBuffer rfl (by decide)).2.1 (by decide) (by decide)
  · exact (horizontal_motion_wraps (twoLineEditor { row := 0, col := 0 })
      twoLineBuffer rfl (by decide)).2.2.1 rfl rfl
  · exact (horizontal_motion_wraps (twoLineEditor { row := 1, col := 2 })
      twoLineBuffer rfl (by decide)).2.2.2 (by decide) (by decide)

/-- C9: when the current buffer sits at sequence position `i`,
`next_buffer` returns the id of the buffer at the cyclically next
position `(i+1) % len` and `prev_buffer` the id at the cyclically
previous position `(i+len-1) % len`, both without changing the manager
state. -/
theorem next_prev_cyclic (m : BufferManager) (i : Nat)
    (h : position (fun b => b.id == m.current_buffer_id) m.buffers = some i) :
    (m.next_buffer).1 =
      some (nthBuf m.buffers ((i + 1) % m.buffers.length)).id ∧
    (m.prev_buffer).1 =
      some (nthBuf m.buffers
        ((i + m.buffers.length - 1) % m.buffers.length)).id ∧
    (m.next_buffer).2 = m ∧ (m.prev_buffer).2 = m := by
  have hlt : i < m.buffers.length := by
    obtain ⟨pre, x, post, hl, hlen, _⟩ := position_spec h
    rw [hl, ← hlen]
    simp
  refine ⟨?_, ?_, ?_, ?_⟩
  · simp [BufferManager.next_buffer, h]
  · simp only [BufferManager.prev_buffer, h]
    have harith : (if (i == 0) = true then m.buffers.length - 1 else i - 1) =
        (i + m.buffers.length - 1) % m.buffers.length := by
      cases i with
      | zero =>
        simp only [Nat.zero_add, beq_self_eq_true, if_true]
        exact (Nat.mod_eq_of_lt (by omega)).symm
      | succ k =>
        have hne : ((k + 1 : Nat) == 0) = false := by simp
        rw [hne]
        simp only [Bool.false_eq_true, if_false, Nat.add_sub_cancel]
        have h1 : k + 1 + m.buffers.length - 1 = k + m.buffers.length := by omega
        rw [h1, Nat.add_mod_right]
        exact (Nat.mod_eq_of_lt (by omega)).symm
    rw [harith]
  · simp [BufferManager.next_buffer, h]
  · simp [BufferManager.prev_buffer, h]

/-- C9 witness: with buffers `[0,1,2]` and current 2, `next_buffer`
yields 0; with current 0, `prev_buffer` yields 2; neither changes the
manager. -/
theorem next_prev_cyclic_witness :
    ((threeBufferManager 2).next_buffer).1 = some 0 ∧
    ((threeBufferManager 0).prev_buffer).1 = some 2 ∧
    ((threeBufferManager 2).next_buffer).2 = threeBufferManager 2 := by
  refine ⟨?_, ?_, ?_⟩
  · exact (next_prev_cyclic (threeBufferManager 2) 2 (by decide)).1
  · exact (next_prev_cyclic (threeBufferManager 0) 0 (by decide)).2.1
  · exact (next_prev_cyclic (threeBufferManager 2) 2 (by decide)).2.2.1

/-- Reduction of `execute_command` on the literal command text `wq`. -/
theorem execute_command_wq_red (fs : Fs) (bm : BufferManager) (cur : Cursor)
    (so : Nat) (sq : Bool) (mo : Mode) :
    Editor.execute_command fs ⟨bm, cur, so, sq, mo, ['w', 'q']⟩ =
      (match findBuf (fun b => b.id == bm.current_buffer_id) bm.buffers with
       | none => (⟨bm, cur, so, sq, mo, ['w', 'q']⟩ : Editor)
       | some buf =>
         if buf.path.isNone then
           (⟨bm, cur, so, sq, Mode.SaveDialog, []⟩ : Editor)
         else
           match bm.save_current fs none with
           | none => (⟨bm, cur, so, sq, mo, ['w', 'q']⟩ : Editor)
           | some (m1, _) => (⟨m1, cur, so, true, Mode.Normal, []⟩ : Editor)) := rfl

/-- C10: from Command mode with command text `wq` and a current buffer
that has an origin path, `ExecuteCommand` sets `should_quit` for every
file-system behaviour — quitting is not conditional on the save
succeeding. -/
theorem wq_quits_even_on_failed_save (fs : Fs) (e : Editor)
    (buf : Buffer) (p : FsPath)
    (hmode : e.mode = Mode.Command)
    (hin : e.command_input = ['w', 'q'])
    (hbuf : findBuf (fun b => b.id == e.buffer_manager.current_buffer_id)
      e.buffer_manager.buffers = some buf)
    (hpath : buf.path = some p) :
    (e.handle_action fs .ExecuteCommand).should_quit = true := by
  obtain ⟨bm, cur, so, sq, mo, ci⟩ := e
  have hin' : ci = ['w', 'q'] := hin
  subst hin'
  have hbuf' : findBuf (fun b => b.id == bm.current_buffer_id) bm.buffers
      = some buf := hbuf
  show (Editor.execute_command fs ⟨bm, cur, so, sq, mo, ['w', 'q']⟩).should_quit = true
  rw [execute_command_wq_red, hbuf']
  simp only [hpath, Option.isNone_some, Bool.false_eq_true, if_false]
  have hsave : ∃ r, bm.save_current fs none = some r := by
    simp [BufferManager.save_current, hbuf']
    cases hw : fs.write (BufferManager.resolveSavePath none buf) <;> simp [hw]
  obtain ⟨⟨m1, ok⟩, hr⟩ := hsave
  rw [hr]

/-- C10 witness: on a concrete Command-mode editor whose buffer has the
origin path `f.txt`, executing `wq` under a file system whose writes all
fail still sets `should_quit`. -/
theorem wq_quits_even_on_failed_save_witness :
    (wqEditor.handle_action fsNoWrite .ExecuteCommand).should_quit = true :=
  wq_quits_even_on_failed_save fsNoWrite wqEditor (plainBuffer 0 (some ["f.txt"]))
    ["f.txt"] rfl rfl rfl rfl

end Fluxion
